import Mathlib

/-!
Verification development for the NC register derivation core
(`src/NC_Dashboard_BetaV1.py`).  The Python source is shallowly embedded:
pure row-level functions become Lean functions, pandas missing values
(`NaN`/`NaT`) become `Option`, timestamps become an explicit
year/month/day/hour/minute/second record ordered by a seconds count, and
float durations in hours become exact rationals.  Strings are handled as
`List Char`; the regular expressions of the source are embedded as
character-list parsers that mirror the regexes' backtracking behaviour on
their fixed shapes.  ASCII is assumed for case folding, whitespace and the
word-character class (the dashboard's inputs are ASCII CSV headers/cells);
the nanosecond-epoch representable range of pandas timestamps is modelled
exactly at whole-second granularity.
-/

namespace NC

/-! ### Characters and digits -/

/-- ASCII whitespace as stripped by Python `str.strip` / matched by `\s`. -/
def strWs (c : Char) : Bool :=
  c == ' ' || c == '\t' || c == '\n' || c == '\r' || c == '\x0b' || c == '\x0c'

/-- Python `str.strip()`: drop leading and trailing whitespace. -/
def trimChars (l : List Char) : List Char :=
  ((l.dropWhile strWs).reverse.dropWhile strWs).reverse

/-- Python `str.lower()` restricted to ASCII. -/
def lowerStr (l : List Char) : List Char := l.map Char.toLower

/-- Python `str.replace(".", "")`: remove every dot. -/
def removeDots (l : List Char) : List Char := l.filter (fun c => c != '.')

/-- ASCII decimal digit test (`\d` of the source regexes). -/
def isDig (c : Char) : Bool := 48 ≤ c.toNat && c.toNat ≤ 57

/-- Value of a decimal digit character. -/
def dval (c : Char) : Nat := c.toNat - 48

/-- Decimal digit character for `n % 10` (used by zero-padded rendering). -/
def digitChar (n : Nat) : Char :=
  match n % 10 with
  | 0 => '0' | 1 => '1' | 2 => '2' | 3 => '3' | 4 => '4'
  | 5 => '5' | 6 => '6' | 7 => '7' | 8 => '8' | _ => '9'

/-- Python `f"{n:02d}"` for `n ≤ 99` (all call sites are bounded by 99). -/
def pad2 (n : Nat) : List Char := [digitChar (n / 10), digitChar n]

/-- Python `f"{n:04d}"` for `n ≤ 9999` (all call sites are bounded by 9999). -/
def pad4 (n : Nat) : List Char :=
  [digitChar (n / 1000), digitChar (n / 100), digitChar (n / 10), digitChar n]

/-- Take at most `n` leading digits; returns `(digits, rest)`. -/
def takeDigitsUpTo : Nat → List Char → List Char × List Char
  | 0, l => ([], l)
  | _ + 1, [] => ([], [])
  | n + 1, c :: rest =>
    if isDig c then
      let p := takeDigitsUpTo n rest
      (c :: p.1, p.2)
    else ([], c :: rest)

/-- Numeric value of a digit run (most significant first). -/
def digitsToNat (l : List Char) : Nat := l.foldl (fun a c => 10 * a + dval c) 0

/-! ### Timestamps

`DateTime` is a naive local timestamp; `toSecs` counts seconds from
0001-01-01 00:00:00 in the proleptic Gregorian calendar, the ordering and
subtraction pandas uses on `datetime64` values. -/

structure DateTime where
  year : Nat
  month : Nat
  day : Nat
  hour : Nat
  minute : Nat
  second : Nat
deriving DecidableEq, Repr

def isLeap (y : Nat) : Bool := (y % 4 == 0 && y % 100 != 0) || y % 400 == 0

def daysInMonth (y m : Nat) : Nat :=
  if m == 2 then (if isLeap y then 29 else 28)
  else if m == 4 || m == 6 || m == 9 || m == 11 then 30
  else 31

/-- Days in year `y` strictly before month `m`. -/
def daysBeforeMonth (y : Nat) : Nat → Nat
  | 0 => 0
  | m + 1 => if m == 0 then 0 else daysBeforeMonth y m + daysInMonth y m

/-- Days from 0001-01-01 to the given calendar day. -/
def dateDays (y mo d : Nat) : Nat :=
  365 * (y - 1) + (y - 1) / 4 - (y - 1) / 100 + (y - 1) / 400
    + daysBeforeMonth y mo + (d - 1)

/-- Seconds from 0001-01-01 00:00:00; pandas compares and subtracts
timestamps by this value (at whole-second granularity). -/
def toSecs (dt : DateTime) : Nat :=
  86400 * dateDays dt.year dt.month dt.day
    + 3600 * dt.hour + 60 * dt.minute + dt.second

/-- pandas `datetime64[ns]` stores int64 nanoseconds since
1970-01-01 00:00:00, so a whole-second timestamp is representable exactly
when its distance from the epoch is at most 9223372036 seconds
(`2^63 / 10^9` rounded towards zero).  Out-of-range values are coerced to
`NaT` by `pd.to_datetime(..., errors="coerce")`. -/
def pdInRange (dt : DateTime) : Bool :=
  ((toSecs dt : Int) - (toSecs ⟨1970, 1, 1, 0, 0, 0⟩ : Int)).natAbs ≤ 9223372036

/-- Validity enforced by `pd.to_datetime(full, format="%Y-%m-%d %H:%M:%S",
errors="coerce")`: calendar validity plus the representable range. -/
def validDT (dt : DateTime) : Bool :=
  decide (1 ≤ dt.month) && decide (dt.month ≤ 12) &&
  decide (1 ≤ dt.day) && decide (dt.day ≤ daysInMonth dt.year dt.month) &&
  decide (dt.hour ≤ 23) && decide (dt.minute ≤ 59) && decide (dt.second ≤ 59) &&
  pdInRange dt

/-- Exact hours between two timestamps, `(a - b).total_seconds() / 3600.0`
(signed; modelled exactly in ℚ). -/
def hoursBetween (a b : DateTime) : ℚ :=
  ((toSecs a : ℚ) - (toSecs b : ℚ)) / 3600

/-! ### Date normalization (`_normalize_date_str`) -/

/-- Two-digit year expansion (`_norm_year`). -/
def normYear (y : Nat) : Nat :=
  if y < 100 then (if y < 70 then 2000 + y else 1900 + y) else y

/-- Sentinel test: `if not s or s.lower() in ("nan", "nat", "none")`. -/
def isSentinelChars (l : List Char) : Bool :=
  l.isEmpty || lowerStr l == "nan".data || lowerStr l == "nat".data ||
    lowerStr l == "none".data

/-- Matcher for `^\s*(\d{1,2})SEP(\d{1,2})SEP(\d{2,4})\s*$`
(`_date_ddmmyyyy_slash` / `_date_ddmmyyyy_dash`), returning
(day, month, year) digit values. -/
def matchDMY (sep : Char) (l : List Char) : Option (Nat × Nat × Nat) :=
  let p1 := takeDigitsUpTo 2 (l.dropWhile strWs)
  if p1.1.length == 0 then none else
  match p1.2 with
  | c :: r2 =>
    if c == sep then
      let p2 := takeDigitsUpTo 2 r2
      if p2.1.length == 0 then none else
      match p2.2 with
      | c2 :: r4 =>
        if c2 == sep then
          let p3 := takeDigitsUpTo 4 r4
          if p3.1.length < 2 then none
          else if (p3.2.dropWhile strWs).isEmpty then
            some (digitsToNat p1.1, digitsToNat p2.1, digitsToNat p3.1)
          else none
        else none
      | [] => none
    else none
  | [] => none

/-- Matcher for `^\s*(\d{4})-(\d{1,2})-(\d{1,2})\s*$` (`_date_yyyymmdd_dash`),
returning (year, month, day). -/
def matchYMD (l : List Char) : Option (Nat × Nat × Nat) :=
  let p1 := takeDigitsUpTo 4 (l.dropWhile strWs)
  if p1.1.length != 4 then none else
  match p1.2 with
  | c :: r2 =>
    if c == '-' then
      let p2 := takeDigitsUpTo 2 r2
      if p2.1.length == 0 then none else
      match p2.2 with
      | c2 :: r4 =>
        if c2 == '-' then
          let p3 := takeDigitsUpTo 2 r4
          if p3.1.length == 0 then none
          else if (p3.2.dropWhile strWs).isEmpty then
            some (digitsToNat p1.1, digitsToNat p2.1, digitsToNat p3.1)
          else none
        else none
      | [] => none
    else none
  | [] => none

/-- `f"{y:04d}-{mth:02d}-{d:02d}"` (arguments bounded by 9999/99/99 at all
call sites). -/
def dateCanonChars (y mo d : Nat) : List Char :=
  pad4 y ++ ('-' :: (pad2 mo ++ ('-' :: pad2 d)))

/-- The canonical `YYYY-MM-DD` string for a date. -/
def canonDate (y mo d : Nat) : String := ⟨dateCanonChars y mo d⟩

/-- `_normalize_date_str`.  Note the source wraps the f-string render in
`try/except` returning `""`, but formatting integers never raises, so the
`except` branch is dead and out-of-range components flow into the output
unchecked. -/
def normalize_date_str (s : String) : String :=
  if isSentinelChars s.data then "" else
  let t := trimChars s.data
  match matchDMY '/' t with
  | some (d, mo, y) => canonDate (normYear y) mo d
  | none =>
    match matchDMY '-' t with
    | some (d, mo, y) => canonDate (normYear y) mo d
    | none =>
      match matchYMD t with
      | some (y, mo, d) => canonDate y mo d
      | none => ""

/-! ### Time normalization (`_normalize_time_str`) -/

/-- `f"{hh:02d}:{mm:02d}:{ss:02d}"` (components bounded by 99). -/
def timeCanonChars (h m s : Nat) : List Char :=
  pad2 h ++ (':' :: (pad2 m ++ (':' :: pad2 s)))

/-- Matcher for `^\s*(\d{1,2}):(\d{2})(?::(\d{2}))?\s*([ap]\.?m\.?)\s*$`
applied to the dot-stripped lowercase input (so the am/pm group is exactly
`am` or `pm`).  Returns (hour, minute, second, isPm). -/
def matchTimeAmpm (l : List Char) : Option (Nat × Nat × Nat × Bool) :=
  let p1 := takeDigitsUpTo 2 (l.dropWhile strWs)
  if p1.1.length == 0 then none else
  match p1.2 with
  | ':' :: r2 =>
    let p2 := takeDigitsUpTo 2 r2
    if p2.1.length != 2 then none else
    let sp :=
      match p2.2 with
      | ':' :: r3 =>
        let p3 := takeDigitsUpTo 2 r3
        if p3.1.length == 2 then (digitsToNat p3.1, p3.2) else (0, ':' :: r3)
      | rest => (0, rest)
    match sp.2.dropWhile strWs with
    | a :: 'm' :: r6 =>
      if (a == 'a' || a == 'p') && (r6.dropWhile strWs).isEmpty then
        some (digitsToNat p1.1, digitsToNat p2.1, sp.1, a == 'p')
      else none
    | _ => none
  | _ => none

/-- Matcher for `^\s*(\d{1,2}):(\d{2})(?::(\d{2}))?\s*$` (`_time_hhmm_24`). -/
def matchTime24 (l : List Char) : Option (Nat × Nat × Nat) :=
  let p1 := takeDigitsUpTo 2 (l.dropWhile strWs)
  if p1.1.length == 0 then none else
  match p1.2 with
  | ':' :: r2 =>
    let p2 := takeDigitsUpTo 2 r2
    if p2.1.length != 2 then none else
    let sp :=
      match p2.2 with
      | ':' :: r3 =>
        let p3 := takeDigitsUpTo 2 r3
        if p3.1.length == 2 then (digitsToNat p3.1, p3.2) else (0, ':' :: r3)
      | rest => (0, rest)
    if (sp.2.dropWhile strWs).isEmpty then
      some (digitsToNat p1.1, digitsToNat p2.1, sp.1)
    else none
  | _ => none

/-- `_normalize_time_str`. -/
def normalize_time_str (s : String) : String :=
  if isSentinelChars s.data then "" else
  let s0 := removeDots (lowerStr (trimChars s.data))
  match matchTimeAmpm s0 with
  | some (hh, mm, ss, isPm) =>
    let h := if isPm then (if hh < 12 then hh + 12 else hh)
             else (if hh == 12 then 0 else hh)
    if h ≤ 23 && mm ≤ 59 && ss ≤ 59 then ⟨timeCanonChars h mm ss⟩ else ""
  | none =>
    match matchTime24 s0 with
    | some (hh, mm, ss) =>
      if hh ≤ 23 && mm ≤ 59 && ss ≤ 59 then ⟨timeCanonChars hh mm ss⟩ else ""
    | none => ""

/-! ### Timestamp combiner (`combine_datetime`) -/

/-- Strict parse of `YYYY-MM-DD HH:MM:SS` as done by
`pd.to_datetime(full, format="%Y-%m-%d %H:%M:%S", errors="coerce")`.
Every non-empty `full` built by `combine_datetime` has exactly this
zero-padded 19-character shape, so only that shape is modelled. -/
def parseStrict (l : List Char) : Option DateTime :=
  match l with
  | [y1, y2, y3, y4, c1, m1, m2, c2, d1, d2, c3, h1, h2, c4, i1, i2, c5, s1, s2] =>
    if c1 == '-' && c2 == '-' && c3 == ' ' && c4 == ':' && c5 == ':' &&
       isDig y1 && isDig y2 && isDig y3 && isDig y4 &&
       isDig m1 && isDig m2 && isDig d1 && isDig d2 &&
       isDig h1 && isDig h2 && isDig i1 && isDig i2 && isDig s1 && isDig s2
    then
      let dt : DateTime :=
        ⟨dval y1 * 1000 + dval y2 * 100 + dval y3 * 10 + dval y4,
         dval m1 * 10 + dval m2,
         dval d1 * 10 + dval d2,
         dval h1 * 10 + dval h2,
         dval i1 * 10 + dval i2,
         dval s1 * 10 + dval s2⟩
      if validDT dt then some dt else none
    else none
  | _ => none

/-- `combine_datetime` on one row: normalize both strings, default the time
to `00:00:00` when the date is present, blank the result when the date is
absent, then strictly parse. -/
def combine (ds ts : String) : Option DateTime :=
  let d := normalize_date_str ds
  let t0 := normalize_time_str ts
  let t := if t0 = "" ∧ d ≠ "" then "00:00:00" else t0
  if d = "" then none else parseStrict (d ++ " " ++ t).data

/-! ### Derived columns (`add_derived_columns`) -/

/-- `.astype(str)` on a cell: a missing value renders as `"nan"`. -/
def cellToStr : Option String → String
  | none => "nan"
  | some s => s

/-- One row of `combine_datetime` applied to a raw date/time cell pair. -/
def combineCell (d t : Option String) : Option DateTime :=
  combine (cellToStr d) (cellToStr t)

/-- Effective resolution: `ClosedAt`, else `RespondedAt` when both
`RespondedAt` and `RaisedAt` are present and `RespondedAt > RaisedAt`
(source lines 265-269). -/
def effectiveResolution (closed responded raised : Option DateTime) :
    Option DateTime :=
  match closed with
  | some c => some c
  | none =>
    match responded, raised with
    | some rp, some ra => if toSecs ra < toSecs rp then some rp else none
    | _, _ => none

/-- `(a - b).dt.total_seconds() / 3600.0` with NaT propagation. -/
def subHours : Option DateTime → Option DateTime → Option ℚ
  | some a, some b => some (hoursBetween a b)
  | _, _ => none

/-- `_RespondedNotClosed_Flag`: closed absent, responded and raised present,
responded strictly after raised (source lines 276-281; stored as 0/1). -/
def respondedNotClosedFlag : Option DateTime → Option DateTime →
    Option DateTime → Bool
  | none, some rp, some ra => decide (toSecs ra < toSecs rp)
  | _, _, _ => false

/-- `Close After Response (Hrs)`: populated only when the effective
resolution and the response are present and effective ≥ responded
(source lines 284-289). -/
def closeAfterResponse : Option DateTime → Option DateTime → Option ℚ
  | some e, some rp =>
    if toSecs rp ≤ toSecs e then some (hoursBetween e rp) else none
  | _, _ => none

/-- `SLA Met` (deadline, effective): ternary true/false/unknown
(source lines 292-296; the unknown case is `np.nan`, never `False`). -/
def slaMetOf : Option DateTime → Option DateTime → Option Bool
  | some d, some e => some (decide (toSecs e ≤ toSecs d))
  | _, _ => none

/-- Component-cost sum with `min_count=1`: missing when every component is
missing, else the sum of the present components (source line 301). -/
def partSum (l : List (Option ℚ)) : Option ℚ :=
  let xs := l.filterMap id
  if xs.length == 0 then none else some (xs.foldl (fun a b => a + b) 0)

/-- `pd.to_numeric(total).fillna(part_sum)`: keep a present numeric
aggregate, else fall back to the component sum (source line 302). -/
def reconcileTotal : Option ℚ → Option ℚ → Option ℚ
  | some v, _ => some v
  | none, ps => ps

/-- `_R2C_Strict_Flag`: both rejected and closed instants present
(source lines 323-324). -/
def r2cStrictOf (rejected closed : Option DateTime) : Bool :=
  rejected.isSome && closed.isSome

/-- `R2C Hours (>=0)`: the clamped rejected-to-closed duration, present
exactly when both instants are (source lines 325-326). -/
def r2cHoursOf : Option DateTime → Option DateTime → Option ℚ
  | some rj, some cl => some (max (hoursBetween cl rj) 0)
  | _, _ => none

/-- `last_dt.max(axis=1, skipna=True)` over two candidates. -/
def omaxDT : Option DateTime → Option DateTime → Option DateTime
  | none, b => b
  | some a, none => some a
  | some a, some b => some (if toSecs a ≤ toSecs b then b else a)

/-- `_LastStatusChangeDT`: the latest present candidate among
Closed, Rejected, Responded, Effective (source lines 330-337). -/
def lastStatusChangeOf (c rj rp ef : Option DateTime) : Option DateTime :=
  omaxDT (omaxDT (omaxDT c rj) rp) ef

/-- `series.eq(latest)` at one row: value equality, false on NaT. -/
def hits : Option DateTime → DateTime → Bool
  | some x, L => toSecs x == toSecs L
  | none, _ => false

/-- `_LastStatusEvent`, final overwriting pass (source lines 355-361): a
priority-ordered `np.where` chain.  The earlier object-typed pass (lines
343-352) is a dead store, overwritten by this one.  NumPy promotes the
trailing `np.nan` to the string `"nan"` in the string-typed result. -/
def lastStatusEventOf (c rj rp ef latest : Option DateTime) : String :=
  match latest with
  | none => "nan"
  | some L =>
    if hits c L then "Closed"
    else if hits rj L then "Rejected"
    else if hits rp L then "Responded"
    else if hits ef L then "Effective"
    else "nan"

/-- `_nz`: missing becomes `""`, present text is stripped. -/
def nzOf : Option String → List Char
  | none => []
  | some s => trimChars s.data

/-- ASCII `\w` (regex word character). -/
def isWordChar (c : Char) : Bool :=
  isDig c || (97 ≤ c.toNat && c.toNat ≤ 122) ||
    (65 ≤ c.toNat && c.toNat ≤ 90) || c == '_'

/-- Match `w` as a leading run of `hay`, returning the rest. -/
def takeWordRest : List Char → List Char → Option (List Char)
  | [], r => some r
  | _ :: _, [] => none
  | n :: ns, h :: hs => if n == h then takeWordRest ns hs else none

/-- Does `w` start here, followed by a word boundary? -/
def boundaryMatchHere (w hay : List Char) : Bool :=
  match takeWordRest w hay with
  | some [] => true
  | some (c :: _) => !isWordChar c
  | none => false

/-- Scan for `\bw\b` (`w` starts and ends with word characters);
`prevW` records whether the previous character was a word character. -/
def wordOccursAux (w : List Char) : Bool → List Char → Bool
  | _, [] => false
  | prevW, h :: hs =>
    (!prevW && boundaryMatchHere w (h :: hs)) || wordOccursAux w (isWordChar h) hs

def wordOccurs (w hay : List Char) : Bool := wordOccursAux w false hay

/-- `cur_status.str.contains(r"\b(closed|approved|resolved|complete)\b")`
on the stripped, lowercased status (source lines 314-315). -/
def closedishOf (curStatus : List Char) : Bool :=
  let lc := lowerStr curStatus
  wordOccurs "closed".data lc || wordOccurs "approved".data lc ||
    wordOccurs "resolved".data lc || wordOccurs "complete".data lc

/-- `extract_location_variable` on one cell: `NaN` passes through, else the
segment after the last `/` (the whole string when there is none), stripped. -/
def extractLocation : Option String → Option String
  | none => none
  | some s => some ⟨trimChars ((s.data.reverse.takeWhile (fun c => c != '/')).reverse)⟩

/-- One row of the input table: the raw cells `add_derived_columns` reads
(a missing column is an all-`none` column) plus the derived cells it
writes.  `totalCost` is both read and overwritten (cost fallback). -/
structure Row where
  raisedOnDate : Option String
  raisedOnTime : Option String
  deadlineDate : Option String
  deadlineTime : Option String
  respondedOnDate : Option String
  respondedOnTime : Option String
  rejectedOnDate : Option String
  rejectedOnTime : Option String
  closedOnDate : Option String
  closedOnTime : Option String
  rejectedBy : Option String
  rejectedComment : Option String
  closedBy : Option String
  closedComment : Option String
  currentStatus : Option String
  locationVariable : Option String
  labourCost : Option ℚ
  materialCost : Option ℚ
  machineryCost : Option ℚ
  otherCost : Option ℚ
  totalCost : Option ℚ
  locationFixed : Option String
  raisedAt : Option DateTime
  deadlineAt : Option DateTime
  respondedAt : Option DateTime
  rejectedAt : Option DateTime
  closedAt : Option DateTime
  effectiveResolutionAt : Option DateTime
  lastStatusChangeAt : Option DateTime
  closureTimeHrs : Option ℚ
  respondingTimeHrs : Option ℚ
  closeAfterResponseHrs : Option ℚ
  r2cHours : Option ℚ
  respondedNotClosed : Bool
  r2cFlag : Bool
  r2cStrictFlag : Bool
  slaMet : Option Bool
  lastStatusEvent : String

/-- `_R2C_Flag`: evidence-based rejected-then-closed inference
(source lines 305-321), reading the rejection/closure evidence cells and
the current-status text. -/
def r2cInferredOf (rejectedAt closedAt : Option DateTime)
    (rejBy rejCom rejD rejT : Option String)
    (curStatus clBy clCom clD clT : Option String) : Bool :=
  (rejectedAt.isSome || !(nzOf rejBy).isEmpty || !(nzOf rejCom).isEmpty ||
    !(nzOf rejD).isEmpty || !(nzOf rejT).isEmpty) &&
  (closedAt.isSome || closedishOf (nzOf curStatus) || !(nzOf clBy).isEmpty ||
    !(nzOf clCom).isEmpty || !(nzOf clD).isEmpty || !(nzOf clT).isEmpty)

/-- `add_derived_columns` on one row: every derived cell is recomputed from
the raw cells; `totalCost` additionally reads its own current value. -/
def addDerived (r : Row) : Row :=
  { r with
    locationFixed := extractLocation r.locationVariable,
    raisedAt := combineCell r.raisedOnDate r.raisedOnTime,
    deadlineAt := combineCell r.deadlineDate r.deadlineTime,
    respondedAt := combineCell r.respondedOnDate r.respondedOnTime,
    rejectedAt := combineCell r.rejectedOnDate r.rejectedOnTime,
    closedAt := combineCell r.closedOnDate r.closedOnTime,
    effectiveResolutionAt :=
      effectiveResolution (combineCell r.closedOnDate r.closedOnTime)
        (combineCell r.respondedOnDate r.respondedOnTime)
        (combineCell r.raisedOnDate r.raisedOnTime),
    closureTimeHrs :=
      subHours
        (effectiveResolution (combineCell r.closedOnDate r.closedOnTime)
          (combineCell r.respondedOnDate r.respondedOnTime)
          (combineCell r.raisedOnDate r.raisedOnTime))
        (combineCell r.raisedOnDate r.raisedOnTime),
    respondingTimeHrs :=
      subHours (combineCell r.respondedOnDate r.respondedOnTime)
        (combineCell r.raisedOnDate r.raisedOnTime),
    respondedNotClosed :=
      respondedNotClosedFlag (combineCell r.closedOnDate r.closedOnTime)
        (combineCell r.respondedOnDate r.respondedOnTime)
        (combineCell r.raisedOnDate r.raisedOnTime),
    closeAfterResponseHrs :=
      closeAfterResponse
        (effectiveResolution (combineCell r.closedOnDate r.closedOnTime)
          (combineCell r.respondedOnDate r.respondedOnTime)
          (combineCell r.raisedOnDate r.raisedOnTime))
        (combineCell r.respondedOnDate r.respondedOnTime),
    slaMet :=
      slaMetOf (combineCell r.deadlineDate r.deadlineTime)
        (effectiveResolution (combineCell r.closedOnDate r.closedOnTime)
          (combineCell r.respondedOnDate r.respondedOnTime)
          (combineCell r.raisedOnDate r.raisedOnTime)),
    totalCost :=
      reconcileTotal r.totalCost
        (partSum [r.labourCost, r.materialCost, r.machineryCost, r.otherCost]),
    r2cFlag :=
      r2cInferredOf (combineCell r.rejectedOnDate r.rejectedOnTime)
        (combineCell r.closedOnDate r.closedOnTime)
        r.rejectedBy r.rejectedComment r.rejectedOnDate r.rejectedOnTime
        r.currentStatus r.closedBy r.closedComment r.closedOnDate r.closedOnTime,
    r2cStrictFlag :=
      r2cStrictOf (combineCell r.rejectedOnDate r.rejectedOnTime)
        (combineCell r.closedOnDate r.closedOnTime),
    r2cHours :=
      r2cHoursOf (combineCell r.rejectedOnDate r.rejectedOnTime)
        (combineCell r.closedOnDate r.closedOnTime),
    lastStatusChangeAt :=
      lastStatusChangeOf (combineCell r.closedOnDate r.closedOnTime)
        (combineCell r.rejectedOnDate r.rejectedOnTime)
        (combineCell r.respondedOnDate r.respondedOnTime)
        (effectiveResolution (combineCell r.closedOnDate r.closedOnTime)
          (combineCell r.respondedOnDate r.respondedOnTime)
          (combineCell r.raisedOnDate r.raisedOnTime)),
    lastStatusEvent :=
      lastStatusEventOf (combineCell r.closedOnDate r.closedOnTime)
        (combineCell r.rejectedOnDate r.rejectedOnTime)
        (combineCell r.respondedOnDate r.respondedOnTime)
        (effectiveResolution (combineCell r.closedOnDate r.closedOnTime)
          (combineCell r.respondedOnDate r.respondedOnTime)
          (combineCell r.raisedOnDate r.raisedOnTime))
        (lastStatusChangeOf (combineCell r.closedOnDate r.closedOnTime)
          (combineCell r.rejectedOnDate r.rejectedOnTime)
          (combineCell r.respondedOnDate r.respondedOnTime)
          (effectiveResolution (combineCell r.closedOnDate r.closedOnTime)
            (combineCell r.respondedOnDate r.respondedOnTime)
            (combineCell r.raisedOnDate r.raisedOnTime))) }

/-! ### SLA-rate aggregation (`metrics_summary`, source lines 373-374) -/

/-- `df["SLA Met"].dropna()`: the rows with a known SLA outcome. -/
def slaKnown (l : List (Option Bool)) : List Bool := l.filterMap id

/-- `sla_known.mean() * 100`, missing when no row is known: the mean is the
fraction of `true` among the known rows only. -/
def slaRate (l : List (Option Bool)) : Option ℚ :=
  if (slaKnown l).length == 0 then none
  else some (100 * (((slaKnown l).filter id).length : ℚ) / ((slaKnown l).length : ℚ))

/-- Specification-side definition (spec §4.3 step 9), for comparison with
the code's `lastStatusEventOf`: the label of whichever candidate equals the
maximal instant, with tie-break priority Closed > Rejected > Responded >
Effective. -/
def lastStatusEventSpec (c rj rp _ef : Option DateTime) (L : DateTime) : String :=
  if hits c L then "Closed"
  else if hits rj L then "Rejected"
  else if hits rp L then "Responded"
  else "Effective"

/-! ## Theorems -/

/-- Helper: splitting a column into known and unknown entries preserves the
row count. -/
theorem length_filterMap_add_none (l : List (Option Bool)) :
    (l.filterMap id).length + (l.filter (fun o => o.isNone)).length = l.length := by
  induction l with
  | nil => rfl
  | cons h t ih => cases h <;> simp [List.filterMap_cons, List.filter_cons] <;> omega

/-- C1: for every row, `EffectiveResolutionAt` equals `ClosedAt` when
`ClosedAt` is present; otherwise it equals `RespondedAt` when `RespondedAt`
and `RaisedAt` are both present and `RespondedAt` is strictly after
`RaisedAt`; otherwise it is absent. -/
theorem C1_effective_resolution (closed responded raised : Option DateTime) :
    (∀ c, closed = some c → effectiveResolution closed responded raised = some c)
    ∧ (∀ rp ra, closed = none → responded = some rp → raised = some ra →
        toSecs ra < toSecs rp →
        effectiveResolution closed responded raised = some rp)
    ∧ (closed = none → responded = none →
        effectiveResolution closed responded raised = none)
    ∧ (closed = none → raised = none →
        effectiveResolution closed responded raised = none)
    ∧ (∀ rp ra, closed = none → responded = some rp → raised = some ra →
        toSecs rp ≤ toSecs ra →
        effectiveResolution closed responded raised = none) := by
  refine ⟨?_, ?_, ?_, ?_, ?_⟩
  · intro c hc; subst hc; rfl
  · intro rp ra hc hrp hra hlt; subst hc; subst hrp; subst hra
    simp [effectiveResolution, hlt]
  · intro hc hr; subst hc; subst hr; cases raised <;> rfl
  · intro hc hr; subst hc; subst hr; cases responded <;> rfl
  · intro rp ra hc hrp hra hle; subst hc; subst hrp; subst hra
    simp [effectiveResolution, Nat.not_lt.mpr hle]

/-- C1 witness: a closed row keeps `ClosedAt` (even with a later response),
an unclosed row with a response after raising resolves at the response, and
a response before raising leaves the resolution absent. -/
theorem C1_witness :
    effectiveResolution (some ⟨2021, 1, 1, 0, 0, 0⟩) (some ⟨2021, 2, 1, 0, 0, 0⟩) none
      = some ⟨2021, 1, 1, 0, 0, 0⟩
    ∧ effectiveResolution none (some ⟨2021, 1, 2, 0, 0, 0⟩) (some ⟨2021, 1, 1, 0, 0, 0⟩)
      = some ⟨2021, 1, 2, 0, 0, 0⟩
    ∧ effectiveResolution none (some ⟨2021, 1, 1, 0, 0, 0⟩) (some ⟨2021, 1, 2, 0, 0, 0⟩)
      = none :=
  ⟨(C1_effective_resolution _ _ _).1 _ rfl,
   (C1_effective_resolution _ _ _).2.1 _ _ rfl rfl rfl (by decide),
   (C1_effective_resolution _ _ _).2.2.2.2 _ _ rfl rfl rfl (by decide)⟩

/-- C3: `SLAMet` is the truth value of effective ≤ deadline when both are
present and a third unknown state (never `false`) otherwise, and the SLA
rate is averaged over known rows only: 10 rows with 3 unknown give a
denominator of 7. -/
theorem C3_sla_ternary :
    (∀ d e : DateTime, toSecs e ≤ toSecs d →
        slaMetOf (some d) (some e) = some true)
    ∧ (∀ d e : DateTime, toSecs d < toSecs e →
        slaMetOf (some d) (some e) = some false)
    ∧ (∀ d e : Option DateTime, d = none ∨ e = none → slaMetOf d e = none)
    ∧ (∀ d e : Option DateTime, d = none ∨ e = none → slaMetOf d e ≠ some false)
    ∧ (∀ l : List (Option Bool), l.length = 10 →
        (l.filter (fun o => o.isNone)).length = 3 →
        (slaKnown l).length = 7
        ∧ slaRate l = some (100 * (((slaKnown l).filter id).length : ℚ) / 7)) := by
  refine ⟨?_, ?_, ?_, ?_, ?_⟩
  · intro d e h; simp [slaMetOf, h]
  · intro d e h; simp [slaMetOf, Nat.not_le.mpr h]
  · rintro d e (rfl | rfl)
    · rfl
    · cases d <;> rfl
  · rintro d e (rfl | rfl)
    · simp [slaMetOf]
    · cases d <;> simp [slaMetOf]
  · intro l h10 h3
    have h7 : (slaKnown l).length = 7 := by
      have := length_filterMap_add_none l
      unfold slaKnown; omega
    refine ⟨h7, ?_⟩
    simp [slaRate, h7]

/-- C3 witness: a met deadline reports `some true`, and a concrete
10-row column with 3 unknown entries averages over 7 known rows. -/
theorem C3_witness :
    slaMetOf (some ⟨2021, 1, 2, 0, 0, 0⟩) (some ⟨2021, 1, 1, 0, 0, 0⟩) = some true
    ∧ ((slaKnown [some true, some true, some false, none, none, none,
          some true, some false, some true, some true]).length = 7
      ∧ slaRate [some true, some true, some false, none, none, none,
          some true, some false, some true, some true]
        = some (100 * (((slaKnown [some true, some true, some false, none, none,
            none, some true, some false, some true, some true]).filter id).length : ℚ) / 7)) :=
  ⟨C3_sla_ternary.1 _ _ (by decide),
   C3_sla_ternary.2.2.2.2 _ (by decide) (by decide)⟩

/-- Helper: the pairwise maximum returns one of its arguments. -/
theorem omax_eq_or (a b : Option DateTime) : omaxDT a b = a ∨ omaxDT a b = b := by
  cases a with
  | none => right; rfl
  | some x =>
    cases b with
    | none => left; rfl
    | some y =>
      by_cases h : toSecs x ≤ toSecs y
      · right; simp [omaxDT, h]
      · left; simp [omaxDT, h]

/-- Helper: the pairwise maximum is present iff either argument is. -/
theorem omax_isSome (a b : Option DateTime) :
    (omaxDT a b).isSome = (a.isSome || b.isSome) := by
  cases a <;> cases b <;> simp [omaxDT]

/-- Helper: a present left argument is dominated by the pairwise maximum. -/
theorem omax_dom_left {a : Option DateTime} (b : Option DateTime) {x : DateTime}
    (hx : a = some x) : ∃ y, omaxDT a b = some y ∧ toSecs x ≤ toSecs y := by
  subst hx
  cases b with
  | none => exact ⟨x, rfl, le_refl _⟩
  | some z =>
    by_cases h : toSecs x ≤ toSecs z
    · exact ⟨z, by simp [omaxDT, h], h⟩
    · exact ⟨x, by simp [omaxDT, h], le_refl _⟩

/-- Helper: a present right argument is dominated by the pairwise maximum. -/
theorem omax_dom_right (a : Option DateTime) {b : Option DateTime} {x : DateTime}
    (hx : b = some x) : ∃ y, omaxDT a b = some y ∧ toSecs x ≤ toSecs y := by
  subst hx
  cases a with
  | none => exact ⟨x, rfl, le_refl _⟩
  | some z =>
    by_cases h : toSecs z ≤ toSecs x
    · exact ⟨x, by simp [omaxDT, h], le_refl _⟩
    · exact ⟨z, by simp [omaxDT, h], by omega⟩

/-- C2: whenever at least one candidate among Closed, Rejected, Responded,
Effective is present, `LastStatusChangeAt` is present, is attained by a
candidate and dominates every present candidate, and the final overwriting
pass labels it with priority Closed > Rejected > Responded > Effective; in
particular equal Closed and Responded timestamps label as "Closed". -/
theorem C2_last_status_event :
    (∀ c rj rp ef : Option DateTime,
      (c.isSome || rj.isSome || rp.isSome || ef.isSome) = true →
      (lastStatusChangeOf c rj rp ef).isSome = true)
    ∧ (∀ (c rj rp ef : Option DateTime) (L : DateTime),
        lastStatusChangeOf c rj rp ef = some L →
        (c = some L ∨ rj = some L ∨ rp = some L ∨ ef = some L)
        ∧ (∀ x, c = some x ∨ rj = some x ∨ rp = some x ∨ ef = some x →
            toSecs x ≤ toSecs L)
        ∧ lastStatusEventOf c rj rp ef (lastStatusChangeOf c rj rp ef)
          = lastStatusEventSpec c rj rp ef L)
    ∧ (∀ (t u : DateTime) (ra : Option DateTime), toSecs t = toSecs u →
        lastStatusEventOf (some t) none (some u)
          (effectiveResolution (some t) (some u) ra)
          (lastStatusChangeOf (some t) none (some u)
            (effectiveResolution (some t) (some u) ra)) = "Closed") := by
  refine ⟨?_, ?_, ?_⟩
  · intro c rj rp ef h
    simp only [lastStatusChangeOf, omax_isSome]
    exact h
  · intro c rj rp ef L hL
    have hL' : omaxDT (omaxDT (omaxDT c rj) rp) ef = some L := hL
    have mem : c = some L ∨ rj = some L ∨ rp = some L ∨ ef = some L := by
      rcases omax_eq_or (omaxDT (omaxDT c rj) rp) ef with h1 | h1
      · have h2 : omaxDT (omaxDT c rj) rp = some L := by rw [← h1]; exact hL'
        rcases omax_eq_or (omaxDT c rj) rp with h3 | h3
        · have h4 : omaxDT c rj = some L := by rw [← h3]; exact h2
          rcases omax_eq_or c rj with h5 | h5
          · left; rw [← h5]; exact h4
          · right; left; rw [← h5]; exact h4
        · right; right; left; rw [← h3]; exact h2
      · right; right; right; rw [← h1]; exact hL'
    have ub : ∀ x, c = some x ∨ rj = some x ∨ rp = some x ∨ ef = some x →
        toSecs x ≤ toSecs L := by
      intro x hx
      rcases hx with hx | hx | hx | hx
      · obtain ⟨y1, h1, le1⟩ := omax_dom_left rj hx
        obtain ⟨y2, h2, le2⟩ := omax_dom_left rp h1
        obtain ⟨y3, h3, le3⟩ := omax_dom_left ef h2
        have hE : y3 = L := by
          have := h3.symm.trans hL'
          injection this
        subst hE
        omega
      · obtain ⟨y1, h1, le1⟩ := omax_dom_right c hx
        obtain ⟨y2, h2, le2⟩ := omax_dom_left rp h1
        obtain ⟨y3, h3, le3⟩ := omax_dom_left ef h2
        have hE : y3 = L := by
          have := h3.symm.trans hL'
          injection this
        subst hE
        omega
      · obtain ⟨y2, h2, le2⟩ := omax_dom_right (omaxDT c rj) hx
        obtain ⟨y3, h3, le3⟩ := omax_dom_left ef h2
        have hE : y3 = L := by
          have := h3.symm.trans hL'
          injection this
        subst hE
        omega
      · obtain ⟨y3, h3, le3⟩ := omax_dom_right (omaxDT (omaxDT c rj) rp) hx
        have hE : y3 = L := by
          have := h3.symm.trans hL'
          injection this
        subst hE
        omega
    refine ⟨mem, ub, ?_⟩
    rw [hL]
    by_cases h1 : hits c L = true
    · simp [lastStatusEventOf, lastStatusEventSpec, h1]
    · by_cases h2 : hits rj L = true
      · simp [lastStatusEventOf, lastStatusEventSpec, h1, h2]
      · by_cases h3 : hits rp L = true
        · simp [lastStatusEventOf, lastStatusEventSpec, h1, h2, h3]
        · have hef : hits ef L = true := by
            rcases mem with hm | hm | hm | hm
            · exact absurd (by rw [hm]; simp [hits]) h1
            · exact absurd (by rw [hm]; simp [hits]) h2
            · exact absurd (by rw [hm]; simp [hits]) h3
            · rw [hm]; simp [hits]
          simp [lastStatusEventOf, lastStatusEventSpec, h1, h2, h3, hef]
  · intro t u ra h
    simp [effectiveResolution, lastStatusChangeOf, omaxDT, lastStatusEventOf, hits, h]

/-- C2 witness: a row whose Closed, Responded and Effective instants all
share one timestamp has a present maximum and is labelled `"Closed"`, also
through the priority-ordered specification reading; the tie-break conjunct
is exercised at the same timestamp. -/
theorem C2_witness :
    (lastStatusChangeOf (some ⟨2021, 1, 5, 0, 0, 0⟩) none (some ⟨2021, 1, 5, 0, 0, 0⟩)
        (some ⟨2021, 1, 5, 0, 0, 0⟩)).isSome = true
    ∧ lastStatusEventOf (some ⟨2021, 1, 5, 0, 0, 0⟩) none (some ⟨2021, 1, 5, 0, 0, 0⟩)
        (some ⟨2021, 1, 5, 0, 0, 0⟩)
        (lastStatusChangeOf (some ⟨2021, 1, 5, 0, 0, 0⟩) none (some ⟨2021, 1, 5, 0, 0, 0⟩)
          (some ⟨2021, 1, 5, 0, 0, 0⟩))
      = lastStatusEventSpec (some ⟨2021, 1, 5, 0, 0, 0⟩) none (some ⟨2021, 1, 5, 0, 0, 0⟩)
          (some ⟨2021, 1, 5, 0, 0, 0⟩) ⟨2021, 1, 5, 0, 0, 0⟩
    ∧ lastStatusEventOf (some ⟨2021, 1, 5, 0, 0, 0⟩) none (some ⟨2021, 1, 5, 0, 0, 0⟩)
        (effectiveResolution (some ⟨2021, 1, 5, 0, 0, 0⟩) (some ⟨2021, 1, 5, 0, 0, 0⟩) none)
        (lastStatusChangeOf (some ⟨2021, 1, 5, 0, 0, 0⟩) none (some ⟨2021, 1, 5, 0, 0, 0⟩)
          (effectiveResolution (some ⟨2021, 1, 5, 0, 0, 0⟩) (some ⟨2021, 1, 5, 0, 0, 0⟩) none))
      = "Closed" :=
  ⟨C2_last_status_event.1 _ _ _ _ (by decide),
   (C2_last_status_event.2.1 _ _ _ _ _ (by decide)).2.2,
   C2_last_status_event.2.2 _ _ none rfl⟩

/-- C4: the claim says a digit-recognized but calendar-invalid date (month
13, day 32) normalizes to absent; the code instead renders the malformed
canonical-shaped string, because the f-string in `_normalize_date_str`
never raises and the `except` fallback to `""` is dead code. -/
theorem C4_normalizer_emits_malformed :
    normalize_date_str "1/13/2020" = "2020-13-01"
    ∧ normalize_date_str "1/13/2020" ≠ ""
    ∧ normalize_date_str "32/1/2020" = "2020-01-32" := by
  refine ⟨by decide, by decide, by decide⟩

/-- C5 counterexample: `"13:00am"` (hour > 12 with an am/pm marker) is not
normalized to absent; the code returns `"13:00:00"`. -/
theorem C5_counterexample :
    normalize_time_str "13:00am" = "13:00:00"
    ∧ normalize_time_str "13:00am" ≠ "" := by
  refine ⟨by decide, by decide⟩

/-- C5 amended: `"2:30pm"` and `"14:30:00"` normalize to the same canonical
`"14:30:00"`; every 12-hour input whose hour exceeds 12 with an am/pm
marker is kept at face value as a 24-hour reading — the am/pm adjustments
never fire, the components are rendered canonically when in range
(so `"13:00am"` gives `"13:00:00"`), and only out-of-range components
(hour > 23, minute or second > 59) yield absent. -/
theorem C5_amended_times :
    normalize_time_str "2:30pm" = "14:30:00"
    ∧ normalize_time_str "14:30:00" = "14:30:00"
    ∧ (∀ (s : String) (hh mm ss : Nat) (isPm : Bool),
        isSentinelChars s.data = false →
        matchTimeAmpm (removeDots (lowerStr (trimChars s.data)))
          = some (hh, mm, ss, isPm) →
        12 < hh →
        (hh ≤ 23 → mm ≤ 59 → ss ≤ 59 →
          normalize_time_str s = ⟨timeCanonChars hh mm ss⟩)
        ∧ ((23 < hh ∨ 59 < mm ∨ 59 < ss) → normalize_time_str s = ""))
    ∧ normalize_time_str "13:00am" = "13:00:00" := by
  refine ⟨by decide, by decide, ?_, by decide⟩
  intro s hh mm ss isPm hsent hmatch hgt
  have hbody : normalize_time_str s
      = (if hh ≤ 23 && mm ≤ 59 && ss ≤ 59
          then (⟨timeCanonChars hh mm ss⟩ : String) else "") := by
    simp only [normalize_time_str, hsent, Bool.false_eq_true, if_false, hmatch]
    cases isPm with
    | true => simp [show ¬ hh < 12 from by omega]
    | false => simp [show hh ≠ 12 from by omega]
  constructor
  · intro h1 h2 h3
    rw [hbody]
    simp [h1, h2, h3]
  · intro hbad
    rw [hbody]
    have hcond : (hh ≤ 23 && mm ≤ 59 && ss ≤ 59 : Bool) = false := by
      simp only [Bool.and_eq_false_iff, decide_eq_false_iff_not, Nat.not_le]
      omega
    simp [hcond]

/-- C5 witness: the universal face-value branch at concrete inputs —
`"15:45pm"` keeps hour 15 and renders `"15:45:00"`, while `"25:00pm"`
(hour out of range) is absent. -/
theorem C5_witness :
    normalize_time_str "15:45pm" = "15:45:00"
    ∧ normalize_time_str "25:00pm" = "" :=
  ⟨((C5_amended_times.2.2.1 "15:45pm" 15 45 0 true (by decide) (by decide)
      (by decide)).1 (by decide) (by decide) (by decide)).trans (by decide),
   (C5_amended_times.2.2.1 "25:00pm" 25 0 0 true (by decide) (by decide)
      (by decide)).2 (Or.inl (by decide))⟩

/-- C7: the R2C duration is present exactly when both `RejectedAt` and
`ClosedAt` are present (`R2CStrict`), then equals
`max(ClosedAt - RejectedAt, 0)` in hours; a rejection after the closure is
clamped to 0, and the duration is never negative. -/
theorem C7_r2c_duration (rejected closed : Option DateTime) :
    ((r2cHoursOf rejected closed).isSome = r2cStrictOf rejected closed)
    ∧ (∀ rj cl, rejected = some rj → closed = some cl →
        r2cHoursOf rejected closed = some (max (hoursBetween cl rj) 0))
    ∧ (∀ rj cl, rejected = some rj → closed = some cl →
        toSecs cl < toSecs rj → r2cHoursOf rejected closed = some 0)
    ∧ (∀ q, r2cHoursOf rejected closed = some q → 0 ≤ q)
    ∧ (r2cStrictOf rejected closed = false → r2cHoursOf rejected closed = none) := by
  refine ⟨?_, ?_, ?_, ?_, ?_⟩
  · cases rejected <;> cases closed <;> simp [r2cHoursOf, r2cStrictOf]
  · intro rj cl hrj hcl; subst hrj; subst hcl; rfl
  · intro rj cl hrj hcl hlt; subst hrj; subst hcl
    have hc : (toSecs cl : ℚ) < (toSecs rj : ℚ) := by exact_mod_cast hlt
    have hle : hoursBetween cl rj ≤ 0 := by
      unfold hoursBetween
      apply div_nonpos_iff.mpr
      right
      constructor
      · linarith
      · norm_num
    simp [r2cHoursOf, max_eq_right hle]
  · intro q hq
    cases rejected with
    | none => simp [r2cHoursOf] at hq
    | some rj =>
      cases closed with
      | none => simp [r2cHoursOf] at hq
      | some cl =>
        simp [r2cHoursOf] at hq
        rw [← hq]
        exact le_max_right _ _
  · cases rejected <;> cases closed <;> simp [r2cHoursOf, r2cStrictOf]

/-- C7 witness: with closure strictly before rejection the clamped duration
is 0, and with both present the duration is the clamped difference. -/
theorem C7_witness :
    r2cHoursOf (some ⟨2021, 1, 2, 0, 0, 0⟩) (some ⟨2021, 1, 1, 0, 0, 0⟩) = some 0
    ∧ r2cHoursOf (some ⟨2021, 1, 1, 0, 0, 0⟩) (some ⟨2021, 1, 2, 12, 0, 0⟩)
      = some (max (hoursBetween ⟨2021, 1, 2, 12, 0, 0⟩ ⟨2021, 1, 1, 0, 0, 0⟩) 0) :=
  ⟨(C7_r2c_duration _ _).2.2.1 _ _ rfl rfl (by decide),
   (C7_r2c_duration _ _).2.1 _ _ rfl rfl⟩

/-- C8: cost reconciliation keeps a present numeric aggregate unchanged,
replaces a missing aggregate by the sum of the present components (missing
when all components are missing); components {100, missing, 50, missing}
give 150 and an aggregate of 500 stays 500. -/
theorem C8_cost_reconciliation (agg l m mc o : Option ℚ) :
    (∀ v, agg = some v → reconcileTotal agg (partSum [l, m, mc, o]) = some v)
    ∧ (agg = none →
        reconcileTotal agg (partSum [l, m, mc, o]) = partSum [l, m, mc, o])
    ∧ (agg = none → l = none → m = none → mc = none → o = none →
        reconcileTotal agg (partSum [l, m, mc, o]) = none)
    ∧ (∀ x y : ℚ, partSum [some x, none, some y, none] = some (x + y))
    ∧ reconcileTotal none (partSum [some 100, none, some 50, none]) = some 150
    ∧ reconcileTotal (some 500) (partSum [some 100, none, some 50, none])
      = some 500 := by
  refine ⟨?_, ?_, ?_, ?_, ?_, ?_⟩
  · intro v hv; subst hv; rfl
  · intro h; subst h; rfl
  · intro h1 h2 h3 h4 h5; subst h1; subst h2; subst h3; subst h4; subst h5; rfl
  · intro x y
    simp [partSum, List.filterMap]
  · norm_num [partSum, reconcileTotal, List.filterMap]
  · rfl

/-- C8 witness: the two hypothesis-bearing branches at concrete inputs — a
present aggregate of 500 is kept, and an all-missing row stays missing. -/
theorem C8_witness :
    reconcileTotal (some 500) (partSum [some 100, none, some 50, none]) = some 500
    ∧ reconcileTotal none (partSum [(none : Option ℚ), none, none, none]) = none :=
  ⟨(C8_cost_reconciliation (some 500) (some 100) none (some 50) none).1 _ rfl,
   (C8_cost_reconciliation none none none none none).2.2.1 rfl rfl rfl rfl rfl⟩

/-- C10: whenever the responded-not-closed flag is set, the effective
resolution is present and equal to `RespondedAt`, so the close-after-response
duration is 0 hours. -/
theorem C10_responded_not_closed (closed responded raised : Option DateTime)
    (h : respondedNotClosedFlag closed responded raised = true) :
    effectiveResolution closed responded raised = responded
    ∧ responded.isSome = true
    ∧ closeAfterResponse (effectiveResolution closed responded raised) responded
      = some 0 := by
  cases closed with
  | some c => simp [respondedNotClosedFlag] at h
  | none =>
    cases responded with
    | none => simp [respondedNotClosedFlag] at h
    | some rp =>
      cases raised with
      | none => simp [respondedNotClosedFlag] at h
      | some ra =>
        have hlt : toSecs ra < toSecs rp := by
          simpa [respondedNotClosedFlag] using h
        refine ⟨?_, rfl, ?_⟩
        · simp [effectiveResolution, hlt]
        · simp [effectiveResolution, hlt, closeAfterResponse, hoursBetween]

/-- Helper: the cost fallback is idempotent — reapplying `fillna` with the
same component sum changes nothing. -/
theorem reconcile_idem (a p : Option ℚ) :
    reconcileTotal (reconcileTotal a p) p = reconcileTotal a p := by
  cases a <;> cases p <;> rfl

/-- C9: the derivation pass is idempotent — rerunning
`add_derived_columns` on an already-enriched row (raw cells unchanged)
reproduces the same derived cells, including the already-reconciled
aggregate cost. -/
theorem C9_idempotent (r : Row) : addDerived (addDerived r) = addDerived r := by
  cases r
  simp [addDerived, reconcile_idem]

/-- Helper: rendered digits are digits. -/
theorem isDig_digitChar (n : Nat) : isDig (digitChar n) = true := by
  have h : n % 10 = 0 ∨ n % 10 = 1 ∨ n % 10 = 2 ∨ n % 10 = 3 ∨ n % 10 = 4 ∨
      n % 10 = 5 ∨ n % 10 = 6 ∨ n % 10 = 7 ∨ n % 10 = 8 ∨ n % 10 = 9 := by omega
  rcases h with h | h | h | h | h | h | h | h | h | h <;>
    simp only [digitChar, isDig, h] <;> decide

/-- Helper: the value of a rendered digit is the source digit. -/
theorem dval_digitChar (n : Nat) : dval (digitChar n) = n % 10 := by
  have h : n % 10 = 0 ∨ n % 10 = 1 ∨ n % 10 = 2 ∨ n % 10 = 3 ∨ n % 10 = 4 ∨
      n % 10 = 5 ∨ n % 10 = 6 ∨ n % 10 = 7 ∨ n % 10 = 8 ∨ n % 10 = 9 := by omega
  rcases h with h | h | h | h | h | h | h | h | h | h <;>
    simp only [digitChar, dval, h] <;> decide

/-- Helper: no month has more than 31 days. -/
theorem daysInMonth_le (y m : Nat) : daysInMonth y m ≤ 31 := by
  simp only [daysInMonth]
  split
  · split <;> omega
  · split <;> omega

/-- Helper: a rendered canonical date string is never empty. -/
theorem canonDate_ne_empty (y mo d : Nat) : canonDate y mo d ≠ "" := by
  intro h
  have := congrArg String.data h
  simp [canonDate, dateCanonChars, pad4, pad2] at this

/-- Helper: parsing the canonical render of a valid in-range date at
midnight recovers exactly that date. -/
theorem parseStrict_canon (y mo d : Nat) (hy : y ≤ 9999) (hmo : mo ≤ 99)
    (hd : d ≤ 99) (hv : validDT ⟨y, mo, d, 0, 0, 0⟩ = true) :
    parseStrict (dateCanonChars y mo d ++ (' ' :: timeCanonChars 0 0 0))
      = some ⟨y, mo, d, 0, 0, 0⟩ := by
  have e1 : dval (digitChar (y / 1000)) * 1000 + dval (digitChar (y / 100)) * 100
      + dval (digitChar (y / 10)) * 10 + dval (digitChar y) = y := by
    simp only [dval_digitChar]; omega
  have e2 : dval (digitChar (mo / 10)) * 10 + dval (digitChar mo) = mo := by
    simp only [dval_digitChar]; omega
  have e3 : dval (digitChar (d / 10)) * 10 + dval (digitChar d) = d := by
    simp only [dval_digitChar]; omega
  have h00 : dval (digitChar 0) * 10 + dval (digitChar 0) = 0 := by decide
  simp only [dateCanonChars, timeCanonChars, pad4, pad2, List.cons_append,
    List.nil_append, List.append_assoc]
  simp only [parseStrict, isDig_digitChar, beq_self_eq_true, Bool.and_self,
    Bool.and_true, Bool.true_and, if_true]
  rw [e1, e2, e3, h00]
  rw [if_pos hv]

/-- C6: for every row of the combiner, an absent normalized date gives an
absent instant regardless of the time; a present (valid, canonical) date
with an absent normalized time gives that date at 00:00:00. -/
theorem C6_combiner_defaults :
    (∀ ds ts : String, normalize_date_str ds = "" → combine ds ts = none)
    ∧ (∀ (ds ts : String) (y mo d : Nat), y ≤ 9999 →
        normalize_date_str ds = canonDate y mo d →
        validDT ⟨y, mo, d, 0, 0, 0⟩ = true →
        normalize_time_str ts = "" →
        combine ds ts = some ⟨y, mo, d, 0, 0, 0⟩) := by
  constructor
  · intro ds ts h
    simp [combine, h]
  · intro ds ts y mo d hy hds hv ht
    have hmo : mo ≤ 99 := by
      have h12 : mo ≤ 12 := by
        simp only [validDT, Bool.and_eq_true, decide_eq_true_eq] at hv
        exact hv.1.1.1.1.1.1.2
      omega
    have hd99 : d ≤ 99 := by
      have h31 : d ≤ daysInMonth y mo := by
        simp only [validDT, Bool.and_eq_true, decide_eq_true_eq] at hv
        exact hv.1.1.1.1.2
      have := daysInMonth_le y mo
      omega
    have hne : canonDate y mo d ≠ "" := canonDate_ne_empty y mo d
    have hdata : (canonDate y mo d ++ " " ++ "00:00:00").data
        = dateCanonChars y mo d ++ (' ' :: timeCanonChars 0 0 0) := by
      rw [String.data_append, String.data_append]
      rw [List.append_assoc]
      show dateCanonChars y mo d ++ (" ".data ++ "00:00:00".data) = _
      congr 1
    simp only [combine]
    rw [hds, ht]
    rw [if_pos (show ("" : String) = "" ∧ canonDate y mo d ≠ "" from ⟨rfl, hne⟩)]
    rw [if_neg hne]
    rw [hdata]
    exact parseStrict_canon y mo d hy hmo hd99 hv

/-- C6 witness: a concrete row — unparseable date gives an absent instant
even with a good time; `"5/3/2021"` with a missing time cell combines to
2021-03-05 00:00:00. -/
theorem C6_witness :
    combine "garbage" "2:30pm" = none
    ∧ combine "5/3/2021" "nan" = some ⟨2021, 3, 5, 0, 0, 0⟩ :=
  ⟨C6_combiner_defaults.1 _ _ (by decide),
   C6_combiner_defaults.2 _ _ 2021 3 5 (by decide) (by decide) (by decide) (by decide)⟩

/-- C10 witness: a concrete responded-not-closed row resolves at the
response with a zero close-after-response duration. -/
theorem C10_witness :
    effectiveResolution none (some ⟨2021, 1, 2, 0, 0, 0⟩) (some ⟨2021, 1, 1, 0, 0, 0⟩)
      = some ⟨2021, 1, 2, 0, 0, 0⟩
    ∧ (some ⟨2021, 1, 2, 0, 0, 0⟩ : Option DateTime).isSome = true
    ∧ closeAfterResponse
        (effectiveResolution none (some ⟨2021, 1, 2, 0, 0, 0⟩) (some ⟨2021, 1, 1, 0, 0, 0⟩))
        (some ⟨2021, 1, 2, 0, 0, 0⟩) = some 0 :=
  C10_responded_not_closed none _ _ (by decide)

end NC
